import Mathlib

/-!
Formal model of the synchronization-and-settlement core of the trivia
client (Trivia-app-x/Frontend). Definitions are translated from the
TypeScript source: the gameplay state machine, scoring and batch
settlement from `src/components/GamePlay.tsx`; the start-event fan-in
from `src/components/GameLobby.tsx`; the join flow from
`src/components/JoinGame.tsx`; the question data model from
`src/data/questions.ts`; the host room-code generation from
`src/components/HostGame.tsx`.
-/

namespace Trivia

/-- Question record, from `interface Question` in `src/data/questions.ts`:
`correctAnswer` is the index of the correct option, `difficulty` ranges over
0, 1, 2, and `timeLimit` is in seconds. -/
structure Question where
  id : String
  text : String
  options : List String
  correctAnswer : Nat
  difficulty : Nat
  timeLimit : Nat
deriving Repr, DecidableEq

/-- One stored answer record, from the `playerAnswers` state of
`GamePlay.tsx` (fields questionIndex, selectedAnswer, isCorrect,
pointsEarned, timeTaken). `selectedAnswer = -1` marks a timeout. -/
structure PlayerAnswer where
  questionIndex : Nat
  selectedAnswer : Int
  isCorrect : Bool
  pointsEarned : Nat
  timeTaken : Nat
deriving Repr, DecidableEq

/-- Local scoring of one answer, from `submitAnswer` in `GamePlay.tsx`:
`isCorrect = selectedAnswer === question.correctAnswer`,
`pointsEarned = isCorrect ? 100 * question.difficulty : 0`,
`timeTaken` stored as measured but never used in the formula. -/
def scoreAnswer (q : Question) (i : Nat) (sel : Int) (elapsedMs : Nat) : PlayerAnswer :=
  { questionIndex := i
    selectedAnswer := sel
    isCorrect := sel == (q.correctAnswer : Int)
    pointsEarned := if sel == (q.correctAnswer : Int) then 100 * q.difficulty else 0
    timeTaken := elapsedMs }

/-- Answer-list update performed by `submitAnswer` (`setPlayerAnswers`:
`findIndex` on questionIndex, overwrite the first existing record with the
same index, else append). -/
def recordAnswer : List PlayerAnswer → PlayerAnswer → List PlayerAnswer
  | [], a => [a]
  | x :: xs, a =>
    if x.questionIndex == a.questionIndex then a :: xs
    else x :: recordAnswer xs a

/-- Timeout record appended by `handleTimeUp`: selectedAnswer -1, not
correct, zero points. -/
def timeoutRecord (i : Nat) (t : Nat) : PlayerAnswer :=
  { questionIndex := i
    selectedAnswer := -1
    isCorrect := false
    pointsEarned := 0
    timeTaken := t }

/-- Indices `0 .. n-1` with no stored record, from the total-game-timer
effect in `GamePlay.tsx` (`questions.map((_, index) => index).filter(...)`). -/
def unansweredIndices (n : Nat) (answers : List PlayerAnswer) : List Nat :=
  (List.range n).filter (fun i => !(answers.any (fun a => a.questionIndex == i)))

/-- Mark all unanswered questions as missed, as the total-game-timer effect
does (append a timeout record with timeTaken 0 for each unanswered index). -/
def markUnanswered (n : Nat) (answers : List PlayerAnswer) : List PlayerAnswer :=
  answers ++ (unansweredIndices n answers).map (fun i => timeoutRecord i 0)

/-- Total score of a record list, from `submitAllAnswersBatch`
(`reduce((sum, answer) => sum + answer.pointsEarned, 0)`). -/
def totalScore (answers : List PlayerAnswer) : Nat :=
  answers.foldl (fun sum a => sum + a.pointsEarned) 0

/-- Number of correct records, from `submitAllAnswersBatch`
(`filter(answer => answer.isCorrect).length`). -/
def correctCount (answers : List PlayerAnswer) : Nat :=
  (answers.filter (fun a => a.isCorrect)).length

/-- The aggregated final-score batch that `submitAllAnswersBatch` passes to
the ledger call `submitFinalScore(sessionId, totalScore, correctCount)`. -/
structure ScoreBatch where
  totalScore : Nat
  correctCount : Nat
deriving Repr, DecidableEq

/-- Aggregation as `submitAllAnswersBatch` computes it, over the full
record list. -/
def aggregate (answers : List PlayerAnswer) : ScoreBatch :=
  { totalScore := totalScore answers, correctCount := correctCount answers }

/-- Game phase, from the `gamePhase` state variable of `GamePlay.tsx`
(`'waiting' | 'playing' | 'review' | 'ended'`). -/
inductive Phase
  | waiting
  | playing
  | review
  | ended
deriving Repr, DecidableEq

/-- The per-participant gameplay state of `GamePlay.tsx`. `submissions`
records the `submitFinalScore` ledger calls issued by
`submitAllAnswersBatch` (the client-side settlement submissions). -/
structure GameState where
  questions : List Question
  currentQuestionIndex : Nat
  selectedAnswer : Option Int
  phase : Phase
  playerAnswers : List PlayerAnswer
  hasAutoSubmitted : Bool
  submissions : List ScoreBatch
deriving Repr, DecidableEq

/-- State once the question set is loaded: the initialization effect of
`GamePlay.tsx` moves to the playing phase at index 0 as soon as
`questions.length > 0`, with no answers recorded yet. -/
def initState (qs : List Question) : GameState :=
  { questions := qs
    currentQuestionIndex := 0
    selectedAnswer := none
    phase := if qs.isEmpty then Phase.waiting else Phase.playing
    playerAnswers := []
    hasAutoSubmitted := false
    submissions := [] }

/-- One user or timer event applied to the gameplay state. Each constructor
corresponds to a handler in `GamePlay.tsx`: `select` is a click on an option
button; `submit` is `submitAnswer`; `timeUp` is `handleTimeUp`;
`totalTimeUp` is the whole-session timer effect firing; `navGrid` is a
review-grid question button; `navStart` is the Review Questions button;
`submitFinal` is the auto-submit effect or the Submit Now button (both set
`hasAutoSubmitted` and call `submitAllAnswersBatch`). -/
inductive Op
  | select (j : Int)
  | submit (t : Nat)
  | timeUp (t : Nat)
  | totalTimeUp
  | navGrid (i : Nat)
  | navStart
  | submitFinal
deriving Repr, DecidableEq

/-- Transition function. Guards mirror the conditions under which each
handler can run in the source: option buttons and the submit button are
rendered only in the playing phase with a current question; `handleTimeUp`
records only when `selectedAnswer === null`; the whole-session timer fires
only outside review/ended (hence during play); grid and review-start
navigation exists only on the review screen; the settlement submission is
gated by `hasAutoSubmitted`. -/
def applyOp (s : GameState) : Op → GameState
  | Op.select j =>
    match s.questions.get? s.currentQuestionIndex with
    | some q =>
      if s.phase = Phase.playing ∧ 0 ≤ j ∧ j < (q.options.length : Int) then
        { s with selectedAnswer := some j }
      else s
    | none => s
  | Op.submit t =>
    match s.phase, s.selectedAnswer, s.questions.get? s.currentQuestionIndex with
    | Phase.playing, some j, some q =>
      let answers := recordAnswer s.playerAnswers (scoreAnswer q s.currentQuestionIndex j t)
      if s.questions.length ≤ s.playerAnswers.length then
        { s with playerAnswers := answers, phase := Phase.review }
      else if s.currentQuestionIndex + 1 < s.questions.length then
        { s with playerAnswers := answers
                 currentQuestionIndex := s.currentQuestionIndex + 1
                 selectedAnswer := none }
      else
        { s with playerAnswers := answers, phase := Phase.review }
    | _, _, _ => s
  | Op.timeUp t =>
    match s.phase, s.selectedAnswer with
    | Phase.playing, none =>
      let answers := s.playerAnswers ++ [timeoutRecord s.currentQuestionIndex t]
      if s.currentQuestionIndex + 1 < s.questions.length then
        { s with playerAnswers := answers
                 currentQuestionIndex := s.currentQuestionIndex + 1
                 selectedAnswer := none }
      else
        { s with playerAnswers := answers, phase := Phase.review }
    | _, _ => s
  | Op.totalTimeUp =>
    if s.phase = Phase.playing then
      { s with playerAnswers := markUnanswered s.questions.length s.playerAnswers
               phase := Phase.review }
    else s
  | Op.navGrid i =>
    if s.phase = Phase.review ∧ i < s.questions.length then
      { s with currentQuestionIndex := i
               phase := Phase.playing
               selectedAnswer :=
                 match s.playerAnswers.find? (fun a => a.questionIndex == i) with
                 | some a => if a.selectedAnswer ≠ -1 then some a.selectedAnswer else none
                 | none => none }
    else s
  | Op.navStart =>
    if s.phase = Phase.review ∧ 0 < s.questions.length then
      { s with currentQuestionIndex := 0
               phase := Phase.playing
               selectedAnswer :=
                 (s.playerAnswers.find? (fun a => a.questionIndex == 0)).map
                   (fun a => a.selectedAnswer) }
    else s
  | Op.submitFinal =>
    if s.phase = Phase.review ∧ s.hasAutoSubmitted = false then
      { s with hasAutoSubmitted := true
               submissions :=
                 s.submissions ++
                   (if s.playerAnswers.isEmpty then [] else [aggregate s.playerAnswers]) }
    else s

/-- Run a sequence of events. -/
def run (s : GameState) (ops : List Op) : GameState :=
  ops.foldl applyOp s

/-- A state is reachable for a question set when some event sequence
produces it from the freshly loaded state. -/
def Reachable (qs : List Question) (s : GameState) : Prop :=
  ∃ ops : List Op, s = run (initState qs) ops

/-- Every later record sharing a questionIndex with an earlier record
carries zero points and is not correct. -/
def dupZero : List PlayerAnswer → Bool
  | [] => true
  | a :: l =>
    (l.all fun b =>
      b.questionIndex != a.questionIndex ||
        (b.pointsEarned == 0 && b.isCorrect == false)) && dupZero l

/-- No two records share a questionIndex. -/
def uniqueIndices : List PlayerAnswer → Bool
  | [] => true
  | a :: l => (l.all fun b => b.questionIndex != a.questionIndex) && uniqueIndices l

/-- Keep, for each questionIndex, only the first stored record (the record
that `submitAnswer` overwrites in place). Auxiliary: `seen` indices are
skipped. -/
def dedupFirstAux (seen : List Nat) : List PlayerAnswer → List PlayerAnswer
  | [] => []
  | a :: l =>
    if seen.contains a.questionIndex then dedupFirstAux seen l
    else a :: dedupFirstAux (a.questionIndex :: seen) l

/-- Keep only the first stored record per questionIndex. -/
def dedupFirst (l : List PlayerAnswer) : List PlayerAnswer :=
  dedupFirstAux [] l

/-- Aggregation restricted to the latest record per questionIndex, as the
specification words it: for each questionIndex keep the most recently
written record. On a record list written by appends (as `handleTimeUp`
writes) the most recent record per index is the last occurrence. -/
def lastPerIndex (l : List PlayerAnswer) : List PlayerAnswer :=
  l.foldl
    (fun acc a => (acc.filter fun b => b.questionIndex != a.questionIndex) ++ [a]) []

/-! ### Lobby start-event fan-in, from `GameLobby.tsx`

A non-host participant can learn that the game started through four
channels: the `SessionStarted` contract-event watcher, a
`BroadcastChannel` message, a localStorage `storage` event, and a
same-tab custom event. The observable participant state is the lobby
phase plus the question set stored under the shared localStorage key
(the write-only `gameStarted` flag of the component is not modelled). -/

/-- Delivery channel for the started event. -/
inductive Channel
  | chainWatch
  | broadcast
  | storageEvent
  | customEvent
deriving Repr, DecidableEq

/-- Lobby phase for a non-host participant: still in the lobby, or
transitioned to active play (`onStartGame` fired). -/
inductive LobbyPhase
  | lobby
  | active
deriving Repr, DecidableEq

/-- Observable participant lobby state: phase plus the question set held
under `game_<roomCode>_questions` in localStorage. -/
structure LobbyState where
  phase : LobbyPhase
  storedQuestions : Option (List Question)
deriving Repr, DecidableEq

/-- Fresh non-host lobby state. -/
def initLobby : LobbyState :=
  { phase := LobbyPhase.lobby, storedQuestions := none }

/-- One delivery of the started event (payload `qs`) through a channel,
following the handlers of `GameLobby.tsx`:
the BroadcastChannel handler stores the questions and calls `onStartGame`
only when the payload question list is nonempty; the custom-event handler
stores the questions and always calls `onStartGame`; a storage event fires
only because the questions key was written in this browser, so its delivery
carries that write and calls `onStartGame`; the `SessionStarted` watcher
polls localStorage and calls `onStartGame` only when the questions are
already there. `onStartGame` is `setGameState('playing')` in `App.tsx`. -/
def deliverStart (c : Channel) (qs : List Question) (st : LobbyState) : LobbyState :=
  match c with
  | Channel.broadcast =>
    if qs.isEmpty then st
    else { phase := LobbyPhase.active, storedQuestions := some qs }
  | Channel.customEvent =>
    { phase := LobbyPhase.active, storedQuestions := some qs }
  | Channel.storageEvent =>
    { phase := LobbyPhase.active, storedQuestions := some qs }
  | Channel.chainWatch =>
    if st.storedQuestions.isSome then { st with phase := LobbyPhase.active } else st

/-- Channels that can activate a fresh lobby on their own (the contract
watcher cannot: it only reacts once the questions are already stored). -/
def activates (c : Channel) : Bool :=
  c != Channel.chainWatch

/-- Deliver the same started event through a sequence of channels. -/
def deliverAll (qs : List Question) (st : LobbyState) : List Channel → LobbyState
  | [] => st
  | c :: cs => deliverAll qs (deliverStart c qs st) cs

/-- Number of lobby-to-active transitions performed along a delivery
sequence. -/
def countStarts (qs : List Question) (st : LobbyState) : List Channel → Nat
  | [] => 0
  | c :: cs =>
    (if st.phase ≠ LobbyPhase.active ∧ (deliverStart c qs st).phase = LobbyPhase.active
      then 1 else 0)
      + countStarts qs (deliverStart c qs st) cs

/-! ### Room-code lookup and join flow, from `JoinGame.tsx` -/

/-- Registry lookup failure. -/
inductive RegistryError
  | notFound
deriving Repr, DecidableEq

/-- Modelled from the spec: the SessionRegistry backend behind
`GET /api/game/room/:code` is not part of this repository's source; per
§4.5/§6 of the specification, `lookup(roomCode) -> sessionId` returns the
registered session identifier and fails with `NotFound` if the code is
unregistered or has expired. The registry is a finite map from room codes
to session ids holding only live registrations. -/
def lookup (reg : List (String × Nat)) (code : String) : Except RegistryError Nat :=
  match reg.find? (fun e => e.1 == code) with
  | some e => Except.ok e.2
  | none => Except.error RegistryError.notFound

/-- Outcome of the join flow for the participant. -/
inductive JoinOutcome
  | joined (sessionId : Nat)
  | failed (msg : String)
deriving Repr, DecidableEq

/-- JS `String.prototype.trim`: strip leading and trailing whitespace. -/
def jsTrim (s : String) : String :=
  String.mk
    (((s.data.dropWhile Char.isWhitespace).reverse.dropWhile Char.isWhitespace).reverse)

/-! ### Host room-code generation, from `HostGame.tsx`

`const roomCode = Math.random().toString(36).substring(2, 8).toUpperCase()`.
`Math.random()` returns a double in [0,1), modelled as `k / 2^53` with
`k < 2^53`. `Number.prototype.toString(36)` yields `"0"` for zero and
otherwise `"0."` followed by the base-36 digits of the fraction; for a
dyadic `k / 2^53` the exact expansion is finite (at most 27 digits), so
54 digit steps are exact. -/

/-- Denominator of the modelled `Math.random()` values. -/
def pow53 : Nat := 2 ^ 53

/-- Base-36 digit character, `0-9` then `a-z`, as JS number printing uses. -/
def base36Digit (d : Nat) : Char :=
  if d < 10 then Char.ofNat (48 + d) else Char.ofNat (87 + d)

/-- Base-36 fraction digits of `k / 2^53`, stopping when the remainder is
zero; `fuel` bounds the recursion (54 suffices for exactness). -/
def frac36 : Nat → Nat → List Char
  | 0, _ => []
  | fuel + 1, k =>
    if k = 0 then []
    else base36Digit ((36 * k) / pow53) :: frac36 fuel ((36 * k) % pow53)

/-- Modelled `(k / 2^53).toString(36)`. -/
def jsToString36 (k : Nat) : String :=
  if k = 0 then "0" else "0." ++ String.mk (frac36 54 k)

/-- JS `String.prototype.substring(a, b)` (indices clamped to the string). -/
def jsSubstring (s : String) (a b : Nat) : String :=
  String.mk ((s.data.drop a).take (b - a))

/-- JS `String.prototype.toUpperCase` restricted to the ASCII characters
produced here. -/
def jsToUpper (s : String) : String :=
  String.mk (s.data.map Char.toUpper)

/-- The room code `createGame` in `HostGame.tsx` derives from a
`Math.random()` value `k / 2^53`. -/
def generateRoomCode (k : Nat) : String :=
  jsToUpper (jsSubstring (jsToString36 k) 2 8)

/-- Uppercase alphanumeric ASCII character. -/
def isUpperAlnum (c : Char) : Bool :=
  (decide (65 ≤ c.toNat) && decide (c.toNat ≤ 90)) ||
    (decide (48 ≤ c.toNat) && decide (c.toNat ≤ 57))

/-- The client-side join flow of `joinGame` in `JoinGame.tsx`: reject an
empty (after trimming) or non-6-character code; fetch the session id for
the uppercased code; a failed lookup surfaces as the recoverable
"Game not found" error and never yields a session id. -/
def joinGame (reg : List (String × Nat)) (roomCode : String) : JoinOutcome :=
  if jsTrim roomCode = "" then JoinOutcome.failed "Please enter a room code"
  else if roomCode.length ≠ 6 then JoinOutcome.failed "Room code must be 6 characters"
  else
    match lookup reg (jsToUpper roomCode) with
    | Except.ok sid => JoinOutcome.joined sid
    | Except.error _ => JoinOutcome.failed "Game not found with this room code"

/-! ### Concrete instances used in scenarios, witnesses and counterexamples -/

/-- A one-question set (difficulty 1, correct option 0). -/
def oneQ : Question :=
  { id := "g", text := "G", options := ["x", "y"], correctAnswer := 0
    difficulty := 1, timeLimit := 10 }

/-- Question list holding only `oneQ`. -/
def oneQs : List Question := [oneQ]

/-- First scenario question: difficulty 1, answered correctly. -/
def scenarioQ1 : Question :=
  { id := "q1", text := "Q1", options := ["a", "b", "c", "d"], correctAnswer := 0
    difficulty := 1, timeLimit := 20 }

/-- Second scenario question: difficulty 2, answered incorrectly. -/
def scenarioQ2 : Question :=
  { id := "q2", text := "Q2", options := ["a", "b", "c", "d"], correctAnswer := 1
    difficulty := 2, timeLimit := 25 }

/-- Third scenario question: difficulty 0, timed out. -/
def scenarioQ3 : Question :=
  { id := "q3", text := "Q3", options := ["a", "b", "c", "d"], correctAnswer := 2
    difficulty := 0, timeLimit := 15 }

/-- The three-question scenario set with difficulties 1, 2, 0. -/
def scenarioQs : List Question := [scenarioQ1, scenarioQ2, scenarioQ3]

/-- Scenario events: answer question 1 correctly, question 2 incorrectly,
let question 3 time out. -/
def scenarioOps : List Op :=
  [Op.select 0, Op.submit 5, Op.select 0, Op.submit 7, Op.timeUp 0]

/-- Two equal-difficulty questions used to exercise the review-revisit
timeout path. -/
def revisitQ0 : Question :=
  { id := "a", text := "A", options := ["x", "y"], correctAnswer := 0
    difficulty := 1, timeLimit := 10 }

/-- Second question of the revisit trace. -/
def revisitQ1 : Question :=
  { id := "b", text := "B", options := ["x", "y"], correctAnswer := 0
    difficulty := 1, timeLimit := 10 }

/-- Question list of the revisit trace. -/
def revisitQs : List Question := [revisitQ0, revisitQ1]

/-- Event trace: question 0 times out; question 1 is answered correctly,
entering review; the participant revisits question 0 from the review grid
and lets it time out again; the flow then advances to question 1, which
also times out, appending a second (later) record for index 1. -/
def revisitOps : List Op :=
  [Op.timeUp 2, Op.select 0, Op.submit 3, Op.navGrid 0, Op.timeUp 4, Op.timeUp 5]

/-- State reached by the revisit trace. -/
def revisitState : GameState := run (initState revisitQs) revisitOps

/-- State with one timed-out question, revisited from the review grid
(selected answer reset to none). -/
def timeoutRevisitState : GameState :=
  run (initState oneQs) [Op.timeUp 1, Op.navGrid 0]

/-- State whose final score has been settled (one timeout record,
submission issued). -/
def settledState : GameState :=
  run (initState oneQs) [Op.timeUp 4, Op.submitFinal]

/-- The settled state after revisiting the question from the review grid,
selecting the correct option and submitting it. -/
def settledOverwriteState : GameState :=
  run settledState [Op.navGrid 0, Op.select 0, Op.submit 3]

/-- A question for the C2 witness instance. -/
def c2q : Question :=
  { id := "c2", text := "C2", options := ["x", "y"], correctAnswer := 0
    difficulty := 1, timeLimit := 10 }

/-! ### Basic lemmas about the aggregation -/

theorem totalScore_go (l : List PlayerAnswer) (n : Nat) :
    l.foldl (fun sum a => sum + a.pointsEarned) n = n + totalScore l := by
  induction l generalizing n with
  | nil => simp [totalScore]
  | cons a l ih =>
    simp only [totalScore, List.foldl_cons] at *
    rw [ih (n + a.pointsEarned), ih (0 + a.pointsEarned)]
    omega

theorem totalScore_cons (a : PlayerAnswer) (l : List PlayerAnswer) :
    totalScore (a :: l) = a.pointsEarned + totalScore l := by
  calc totalScore (a :: l)
      = List.foldl (fun sum b => sum + b.pointsEarned) (0 + a.pointsEarned) l := rfl
    _ = (0 + a.pointsEarned) + totalScore l := totalScore_go l _
    _ = a.pointsEarned + totalScore l := by omega

theorem totalScore_append (l m : List PlayerAnswer) :
    totalScore (l ++ m) = totalScore l + totalScore m := by
  induction l with
  | nil => simp [totalScore]
  | cons a l ih => simp only [List.cons_append, totalScore_cons, ih]; omega

theorem correctCount_cons (a : PlayerAnswer) (l : List PlayerAnswer) :
    correctCount (a :: l) = (if a.isCorrect then 1 else 0) + correctCount l := by
  simp only [correctCount, List.filter_cons]
  split <;> simp [Nat.add_comm]

theorem correctCount_append (l m : List PlayerAnswer) :
    correctCount (l ++ m) = correctCount l + correctCount m := by
  simp [correctCount, List.filter_append]

/-! ### The duplicate-records invariant -/

theorem dupZero_head {a : PlayerAnswer} {l : List PlayerAnswer}
    (h : dupZero (a :: l) = true) :
    (∀ b ∈ l, b.questionIndex = a.questionIndex →
      b.pointsEarned = 0 ∧ b.isCorrect = false) ∧ dupZero l = true := by
  simp only [dupZero, Bool.and_eq_true, List.all_eq_true] at h
  refine ⟨?_, h.2⟩
  intro b hb hqi
  have hh := h.1 b hb
  simp [hqi] at hh
  exact hh

theorem dupZero_cons {a : PlayerAnswer} {l : List PlayerAnswer}
    (hhead : ∀ b ∈ l, b.questionIndex = a.questionIndex →
      b.pointsEarned = 0 ∧ b.isCorrect = false)
    (htail : dupZero l = true) : dupZero (a :: l) = true := by
  simp only [dupZero, Bool.and_eq_true, List.all_eq_true]
  refine ⟨?_, htail⟩
  intro b hb
  by_cases hqi : b.questionIndex = a.questionIndex
  · have := hhead b hb hqi
    simp [hqi, this.1, this.2]
  · simp [hqi]

theorem mem_recordAnswer {b a : PlayerAnswer} {l : List PlayerAnswer}
    (h : b ∈ recordAnswer l a) : b = a ∨ b ∈ l := by
  induction l with
  | nil => simp [recordAnswer] at h; simp [h]
  | cons x xs ih =>
    simp only [recordAnswer] at h
    split at h
    · rcases List.mem_cons.mp h with h1 | h1
      · exact Or.inl h1
      · exact Or.inr (List.mem_cons_of_mem _ h1)
    · rcases List.mem_cons.mp h with h1 | h1
      · exact Or.inr (h1 ▸ List.mem_cons_self _ _)
      · rcases ih h1 with h2 | h2
        · exact Or.inl h2
        · exact Or.inr (List.mem_cons_of_mem _ h2)

theorem dupZero_recordAnswer (l : List PlayerAnswer) (a : PlayerAnswer)
    (h : dupZero l = true) : dupZero (recordAnswer l a) = true := by
  induction l with
  | nil => simp [recordAnswer, dupZero]
  | cons x xs ih =>
    obtain ⟨hhead, htail⟩ := dupZero_head h
    simp only [recordAnswer]
    split
    · rename_i hx
      have hx' : x.questionIndex = a.questionIndex := by simpa using hx
      refine dupZero_cons ?_ htail
      intro b hb hqi
      exact hhead b hb (by rw [hqi, ← hx'])
    · rename_i hx
      have hx' : x.questionIndex ≠ a.questionIndex := by simpa using hx
      refine dupZero_cons ?_ (ih htail)
      intro b hb hqi
      rcases mem_recordAnswer hb with hb1 | hb1
      · exact absurd (hb1 ▸ hqi) (fun hc => hx' hc.symm)
      · exact hhead b hb1 hqi

theorem dupZero_append_zeros (l m : List PlayerAnswer)
    (hl : dupZero l = true)
    (hm : ∀ b ∈ m, b.pointsEarned = 0 ∧ b.isCorrect = false) :
    dupZero (l ++ m) = true := by
  induction l with
  | nil =>
    simp only [List.nil_append]
    induction m with
    | nil => simp [dupZero]
    | cons c cs ihm =>
      refine dupZero_cons ?_ (ihm (fun b hb => hm b (List.mem_cons_of_mem _ hb)))
      intro b hb _
      exact hm b (List.mem_cons_of_mem _ hb)
  | cons x xs ih =>
    obtain ⟨hhead, htail⟩ := dupZero_head hl
    simp only [List.cons_append]
    refine dupZero_cons ?_ (ih htail)
    intro b hb hqi
    rcases List.mem_append.mp hb with hb1 | hb1
    · exact hhead b hb1 hqi
    · exact hm b hb1

theorem dupZero_markUnanswered (n : Nat) (l : List PlayerAnswer)
    (h : dupZero l = true) : dupZero (markUnanswered n l) = true := by
  refine dupZero_append_zeros _ _ h ?_
  intro b hb
  rcases List.mem_map.mp hb with ⟨i, _, rfl⟩
  exact ⟨rfl, rfl⟩

theorem dedupFirstAux_scores (l : List PlayerAnswer) :
    ∀ seen : List Nat,
      (∀ b ∈ l, b.questionIndex ∈ seen →
        b.pointsEarned = 0 ∧ b.isCorrect = false) →
      dupZero l = true →
      totalScore (dedupFirstAux seen l) = totalScore l ∧
        correctCount (dedupFirstAux seen l) = correctCount l := by
  induction l with
  | nil => intro seen _ _; exact ⟨rfl, rfl⟩
  | cons a l ih =>
    intro seen hz hd
    obtain ⟨hhead, htail⟩ := dupZero_head hd
    simp only [dedupFirstAux]
    split
    · rename_i hc
      have hc' : a.questionIndex ∈ seen := by simpa using hc
      have ha := hz a (List.mem_cons_self _ _) hc'
      have hrest := ih seen (fun b hb => hz b (List.mem_cons_of_mem _ hb)) htail
      rw [totalScore_cons, correctCount_cons, ha.1, ha.2]
      simpa using hrest
    · have hrest := ih (a.questionIndex :: seen) ?_ htail
      · rw [totalScore_cons, correctCount_cons, totalScore_cons, correctCount_cons,
          hrest.1, hrest.2]
        exact ⟨rfl, rfl⟩
      · intro b hb hmem
        rcases List.mem_cons.mp hmem with h1 | h1
        · exact hhead b hb h1
        · exact hz b (List.mem_cons_of_mem _ hb) h1

theorem aggregate_dedupFirst_of_dupZero (l : List PlayerAnswer)
    (h : dupZero l = true) : aggregate l = aggregate (dedupFirst l) := by
  have hs := dedupFirstAux_scores l [] (by simp) h
  simp [aggregate, dedupFirst, hs.1, hs.2]

/-! ### Reachability induction and invariant transfer -/

theorem run_cons (s : GameState) (o : Op) (ops : List Op) :
    run s (o :: ops) = run (applyOp s o) ops := rfl

theorem reachable_invariant {P : GameState → Prop} (qs : List Question)
    (hinit : P (initState qs))
    (hstep : ∀ s o, P s → P (applyOp s o)) :
    ∀ s, Reachable qs s → P s := by
  have hrun : ∀ (ops : List Op) (s0 : GameState), P s0 → P (run s0 ops) := by
    intro ops
    induction ops with
    | nil => intro s0 h0; exact h0
    | cons o ops ih => intro s0 h0; exact ih _ (hstep s0 o h0)
  rintro s ⟨ops, rfl⟩
  exact hrun ops _ hinit

theorem dupZero_applyOp (s : GameState) (o : Op)
    (h : dupZero s.playerAnswers = true) :
    dupZero (applyOp s o).playerAnswers = true := by
  cases o with
  | select j =>
    simp only [applyOp]
    split
    · split
      · exact h
      · exact h
    · exact h
  | submit t =>
    simp only [applyOp]
    split
    · split
      · exact dupZero_recordAnswer _ _ h
      · split
        · exact dupZero_recordAnswer _ _ h
        · exact dupZero_recordAnswer _ _ h
    · exact h
  | timeUp t =>
    simp only [applyOp]
    split
    · split
      · exact dupZero_append_zeros _ _ h (by intro b hb; simp at hb; simp [hb, timeoutRecord])
      · exact dupZero_append_zeros _ _ h (by intro b hb; simp at hb; simp [hb, timeoutRecord])
    · exact h
  | totalTimeUp =>
    simp only [applyOp]
    split
    · exact dupZero_markUnanswered _ _ h
    · exact h
  | navGrid i =>
    simp only [applyOp]
    split
    · exact h
    · exact h
  | navStart =>
    simp only [applyOp]
    split
    · exact h
    · exact h
  | submitFinal =>
    simp only [applyOp]
    split
    · exact h
    · exact h

theorem dupZero_reachable (qs : List Question) (s : GameState)
    (h : Reachable qs s) : dupZero s.playerAnswers = true :=
  reachable_invariant qs (by simp [initState, dupZero]) dupZero_applyOp s h

/-! ### Uniqueness of question indices -/

theorem uniqueIndices_head {a : PlayerAnswer} {l : List PlayerAnswer}
    (h : uniqueIndices (a :: l) = true) :
    (∀ b ∈ l, b.questionIndex ≠ a.questionIndex) ∧ uniqueIndices l = true := by
  simp only [uniqueIndices, Bool.and_eq_true, List.all_eq_true] at h
  refine ⟨?_, h.2⟩
  intro b hb
  have := h.1 b hb
  simpa using this

theorem uniqueIndices_cons {a : PlayerAnswer} {l : List PlayerAnswer}
    (hhead : ∀ b ∈ l, b.questionIndex ≠ a.questionIndex)
    (htail : uniqueIndices l = true) : uniqueIndices (a :: l) = true := by
  simp only [uniqueIndices, Bool.and_eq_true, List.all_eq_true]
  refine ⟨?_, htail⟩
  intro b hb
  simpa using hhead b hb

theorem uniqueIndices_recordAnswer (l : List PlayerAnswer) (a : PlayerAnswer)
    (h : uniqueIndices l = true) : uniqueIndices (recordAnswer l a) = true := by
  induction l with
  | nil => simp [recordAnswer, uniqueIndices]
  | cons x xs ih =>
    obtain ⟨hhead, htail⟩ := uniqueIndices_head h
    simp only [recordAnswer]
    split
    · rename_i hx
      have hx' : x.questionIndex = a.questionIndex := by simpa using hx
      refine uniqueIndices_cons ?_ htail
      intro b hb
      rw [← hx']
      exact hhead b hb
    · rename_i hx
      have hx' : x.questionIndex ≠ a.questionIndex := by simpa using hx
      refine uniqueIndices_cons ?_ (ih htail)
      intro b hb
      rcases mem_recordAnswer hb with hb1 | hb1
      · rw [hb1]; exact fun hc => hx' hc.symm
      · exact hhead b hb1

theorem uniqueIndices_append (l m : List PlayerAnswer)
    (hl : uniqueIndices l = true) (hm : uniqueIndices m = true)
    (hdisj : ∀ x ∈ l, ∀ y ∈ m, x.questionIndex ≠ y.questionIndex) :
    uniqueIndices (l ++ m) = true := by
  induction l with
  | nil => simpa using hm
  | cons x xs ih =>
    obtain ⟨hhead, htail⟩ := uniqueIndices_head hl
    simp only [List.cons_append]
    refine uniqueIndices_cons ?_
      (ih htail (fun a ha => hdisj a (List.mem_cons_of_mem _ ha)))
    intro b hb
    rcases List.mem_append.mp hb with hb1 | hb1
    · exact hhead b hb1
    · exact fun hc =>
        hdisj x (List.mem_cons_self _ _) b hb1 hc.symm

theorem uniqueIndices_map_timeout (is : List Nat) (h : is.Nodup) :
    uniqueIndices (is.map (fun i => timeoutRecord i 0)) = true := by
  induction is with
  | nil => simp [uniqueIndices]
  | cons i is ih =>
    rw [List.nodup_cons] at h
    simp only [List.map_cons]
    refine uniqueIndices_cons ?_ (ih h.2)
    intro b hb
    rcases List.mem_map.mp hb with ⟨j, hj, rfl⟩
    show j ≠ i
    exact fun hc => h.1 (hc ▸ hj)

theorem unansweredIndices_disjoint (n : Nat) (l : List PlayerAnswer) :
    ∀ i ∈ unansweredIndices n l, ∀ a ∈ l, a.questionIndex ≠ i := by
  intro i hi a ha
  simp only [unansweredIndices, List.mem_filter] at hi
  have hany := hi.2
  simp only [Bool.not_eq_true', List.any_eq_false] at hany
  have := hany a ha
  simpa using this

theorem uniqueIndices_markUnanswered (n : Nat) (l : List PlayerAnswer)
    (h : uniqueIndices l = true) : uniqueIndices (markUnanswered n l) = true := by
  refine uniqueIndices_append _ _ h ?_ ?_
  · refine uniqueIndices_map_timeout _ ?_
    exact (List.nodup_range n).filter _
  · intro x hx y hy
    rcases List.mem_map.mp hy with ⟨i, hi, rfl⟩
    simpa [timeoutRecord] using unansweredIndices_disjoint n l i hi x hx

/-! ### Settlement-submission bookkeeping -/

theorem submissions_applyOp (s : GameState) (o : Op) :
    ((applyOp s o).submissions = s.submissions ∧
      (applyOp s o).hasAutoSubmitted = s.hasAutoSubmitted) ∨
    (s.hasAutoSubmitted = false ∧ (applyOp s o).hasAutoSubmitted = true ∧
      (applyOp s o).submissions = s.submissions ++
        (if s.playerAnswers.isEmpty then [] else [aggregate s.playerAnswers])) := by
  cases o with
  | select j =>
    simp only [applyOp]
    split
    · split
      · exact Or.inl ⟨rfl, rfl⟩
      · exact Or.inl ⟨rfl, rfl⟩
    · exact Or.inl ⟨rfl, rfl⟩
  | submit t =>
    simp only [applyOp]
    split
    · split
      · exact Or.inl ⟨rfl, rfl⟩
      · split
        · exact Or.inl ⟨rfl, rfl⟩
        · exact Or.inl ⟨rfl, rfl⟩
    · exact Or.inl ⟨rfl, rfl⟩
  | timeUp t =>
    simp only [applyOp]
    split
    · split
      · exact Or.inl ⟨rfl, rfl⟩
      · exact Or.inl ⟨rfl, rfl⟩
    · exact Or.inl ⟨rfl, rfl⟩
  | totalTimeUp =>
    simp only [applyOp]
    split
    · exact Or.inl ⟨rfl, rfl⟩
    · exact Or.inl ⟨rfl, rfl⟩
  | navGrid i =>
    simp only [applyOp]
    split
    · exact Or.inl ⟨rfl, rfl⟩
    · exact Or.inl ⟨rfl, rfl⟩
  | navStart =>
    simp only [applyOp]
    split
    · exact Or.inl ⟨rfl, rfl⟩
    · exact Or.inl ⟨rfl, rfl⟩
  | submitFinal =>
    simp only [applyOp]
    split
    · rename_i hg
      exact Or.inr ⟨hg.2, rfl, rfl⟩
    · exact Or.inl ⟨rfl, rfl⟩

theorem submitFinal_idem (s : GameState) :
    applyOp (applyOp s Op.submitFinal) Op.submitFinal = applyOp s Op.submitFinal := by
  by_cases hg : s.phase = Phase.review ∧ s.hasAutoSubmitted = false
  · simp [applyOp, hg]
  · simp [applyOp, hg]

theorem submissions_invariant (qs : List Question) (s : GameState)
    (h : Reachable qs s) :
    (s.hasAutoSubmitted = false → s.submissions = []) ∧ s.submissions.length ≤ 1 := by
  refine reachable_invariant
    (P := fun t => (t.hasAutoSubmitted = false → t.submissions = []) ∧
      t.submissions.length ≤ 1)
    qs ⟨fun _ => rfl, by simp [initState]⟩ ?_ s h
  intro s o hP
  rcases submissions_applyOp s o with ⟨h1, h2⟩ | ⟨h1, h2, h3⟩
  · exact ⟨fun hf => h1.trans (hP.1 (h2 ▸ hf)), h1 ▸ hP.2⟩
  · refine ⟨fun hf => absurd (h2.symm.trans hf) (by simp), ?_⟩
    rw [h3, hP.1 h1]
    split <;> simp

/-! ### Lobby fan-in lemmas -/

theorem deliverStart_stable (c : Channel) (qs : List Question) (st : LobbyState)
    (h1 : st.phase = LobbyPhase.active) (h2 : st.storedQuestions = some qs) :
    deliverStart c qs st = st := by
  cases st
  cases c <;> simp_all [deliverStart]

theorem deliverAll_stable (cs : List Channel) (qs : List Question) (st : LobbyState)
    (h1 : st.phase = LobbyPhase.active) (h2 : st.storedQuestions = some qs) :
    deliverAll qs st cs = st ∧ countStarts qs st cs = 0 := by
  induction cs with
  | nil => exact ⟨rfl, rfl⟩
  | cons c cs ih =>
    have hst := deliverStart_stable c qs st h1 h2
    simp only [deliverAll, countStarts, hst]
    have := ih
    refine ⟨(ih).1, ?_⟩
    rw [(ih).2]
    simp [h1]

theorem deliverStart_activating (c : Channel) (qs : List Question)
    (hq : qs ≠ []) (hc : activates c = true) :
    deliverStart c qs initLobby =
      { phase := LobbyPhase.active, storedQuestions := some qs } := by
  cases c <;> simp_all [deliverStart, activates, initLobby]

theorem deliverStart_chain_lobby (qs : List Question) :
    deliverStart Channel.chainWatch qs initLobby = initLobby := rfl

/-! ### Room-code generation lemmas -/

theorem pow53_pos : 0 < pow53 := by
  unfold pow53
  positivity

theorem frac36_digit_form (fuel : Nat) :
    ∀ k : Nat, k < pow53 → ∀ c ∈ frac36 fuel k, ∃ d, d < 36 ∧ c = base36Digit d := by
  induction fuel with
  | zero => intro k _ c hc; simp [frac36] at hc
  | succ fuel ih =>
    intro k hk c hc
    simp only [frac36] at hc
    split at hc
    · simp at hc
    · rcases List.mem_cons.mp hc with h1 | h1
      · refine ⟨(36 * k) / pow53, ?_, h1⟩
        have hmul : 36 * k < 36 * pow53 := by omega
        exact (Nat.div_lt_iff_lt_mul pow53_pos).mpr (by omega)
      · exact ih ((36 * k) % pow53) (Nat.mod_lt _ pow53_pos) c h1

theorem upper_base36 : ∀ d, d < 36 → isUpperAlnum (Char.toUpper (base36Digit d)) = true := by
  decide

theorem jsToString36_data (k : Nat) (hk : k ≠ 0) :
    (jsToString36 k).data = '0' :: '.' :: frac36 54 k := by
  simp only [jsToString36, if_neg hk]
  rfl

theorem generateRoomCode_data (k : Nat) (hk : k ≠ 0) :
    (generateRoomCode k).data = ((frac36 54 k).take 6).map Char.toUpper := by
  simp only [generateRoomCode, jsToUpper, jsSubstring, jsToString36_data k hk]
  rfl

/-! ### Claim theorems -/

/-- C1 (counterexample): the claim that the batch aggregate equals the sum
and count over the latest record per questionIndex fails on a reachable
record set. After a revisit of a timed-out question flows into a second
timeout of the already-answered question 1, the stored records for index 1
are the original correct 100-point answer followed by a later timeout;
`submitAllAnswersBatch` sums everything and reports 100 points and 1
correct, while the latest record per questionIndex yields 0 and 0. -/
theorem aggregate_ne_lastPerIndex_cex :
    Reachable revisitQs revisitState ∧
    aggregate revisitState.playerAnswers = { totalScore := 100, correctCount := 1 } ∧
    aggregate (lastPerIndex revisitState.playerAnswers) =
      { totalScore := 0, correctCount := 0 } ∧
    aggregate revisitState.playerAnswers ≠
      aggregate (lastPerIndex revisitState.playerAnswers) :=
  ⟨⟨revisitOps, rfl⟩, by decide, by decide, by decide⟩

/-- C1 (amended): in every reachable state, the aggregate that
`submitAllAnswersBatch` computes over the full record list equals the
aggregate over the surviving record per questionIndex (the first stored
occurrence, the one `submitAnswer` overwrites in place): all later
duplicates are zero-point timeout records, so recomputing the aggregate
from the full record set never double-counts a revised answer into the
score, and re-running the aggregation is idempotent because it is a pure
function of the records. -/
theorem aggregate_eq_dedupFirst_of_reachable (qs : List Question) (s : GameState)
    (h : Reachable qs s) :
    aggregate s.playerAnswers = aggregate (dedupFirst s.playerAnswers) :=
  aggregate_dedupFirst_of_dupZero _ (dupZero_reachable qs s h)

/-- C1 (witness): the amended aggregation equality at a concrete reachable
state. -/
theorem aggregate_eq_dedupFirst_witness :
    Reachable revisitQs revisitState ∧
    aggregate revisitState.playerAnswers =
      aggregate (dedupFirst revisitState.playerAnswers) := by
  have h : Reachable revisitQs revisitState := ⟨revisitOps, rfl⟩
  exact ⟨h, aggregate_eq_dedupFirst_of_reachable revisitQs revisitState h⟩

/-- C2: scoring an answer is deterministic: `isCorrect` holds exactly when
the selected index equals the question's correct index; `pointsEarned` is
100 times the difficulty when correct and 0 otherwise; elapsed time does
not affect the points or the correctness; and a difficulty-0 question
earns 0 points even when answered correctly. -/
theorem scoreAnswer_spec (q : Question) (i : Nat) (sel : Int) (t u : Nat) :
    ((scoreAnswer q i sel t).isCorrect = true ↔ sel = (q.correctAnswer : Int)) ∧
    (scoreAnswer q i sel t).pointsEarned =
      (if sel = (q.correctAnswer : Int) then 100 * q.difficulty else 0) ∧
    (scoreAnswer q i sel t).pointsEarned = (scoreAnswer q i sel u).pointsEarned ∧
    (scoreAnswer q i sel t).isCorrect = (scoreAnswer q i sel u).isCorrect ∧
    (scoreAnswer { q with difficulty := 0 } i sel t).pointsEarned = 0 := by
  refine ⟨?_, ?_, rfl, rfl, ?_⟩
  · simp [scoreAnswer]
  · by_cases h : sel = (q.correctAnswer : Int) <;> simp [scoreAnswer, h]
  · by_cases h : sel = (q.correctAnswer : Int) <;> simp [scoreAnswer, h]

/-- C2 (witness): the scoring formula evaluated at a concrete correct
answer of difficulty 1. -/
theorem scoreAnswer_spec_witness : (scoreAnswer c2q 0 0 5).pointsEarned = 100 := by
  have h := scoreAnswer_spec c2q 0 0 5 7
  rw [h.2.1]
  decide

/-- C3: in the three-question scenario with difficulties 1, 2, 0, where
question 1 is answered correctly, question 2 incorrectly and question 3
times out, the aggregated batch is exactly 100 points and 1 correct
answer, and the state machine is in the review phase. -/
theorem scenario_difficulty120_aggregate :
    aggregate (run (initState scenarioQs) scenarioOps).playerAnswers =
      { totalScore := 100, correctCount := 1 } ∧
    (run (initState scenarioQs) scenarioOps).phase = Phase.review :=
  ⟨by decide, by decide⟩

/-- C4: when the whole-session deadline fires while the game is still in
play, every question without a recorded answer is recorded as a timeout
record with selectedAnswer -1 and zero points, every question index ends
up with at least one record, and the state machine transitions to the
review phase. -/
theorem totalTimeUp_marks_all_unanswered (s : GameState)
    (h : s.phase = Phase.playing) :
    (applyOp s Op.totalTimeUp).phase = Phase.review ∧
    ∀ i, i < s.questions.length →
      (∃ a ∈ (applyOp s Op.totalTimeUp).playerAnswers, a.questionIndex = i) ∧
      ((s.playerAnswers.any fun a => a.questionIndex == i) = false →
        ∃ a ∈ (applyOp s Op.totalTimeUp).playerAnswers,
          a.questionIndex = i ∧ a.selectedAnswer = -1 ∧
            a.pointsEarned = 0 ∧ a.isCorrect = false) := by
  have happ : applyOp s Op.totalTimeUp =
      { s with playerAnswers := markUnanswered s.questions.length s.playerAnswers
               phase := Phase.review } := by
    simp [applyOp, h]
  rw [happ]
  refine ⟨rfl, ?_⟩
  intro i hi
  by_cases hany : (s.playerAnswers.any fun a => a.questionIndex == i) = true
  · rcases List.any_eq_true.mp hany with ⟨a, ha, hqi⟩
    have hqi' : a.questionIndex = i := by simpa using hqi
    exact ⟨⟨a, List.mem_append_left _ ha, hqi'⟩,
      fun hfalse => absurd hany (by simp [hfalse])⟩
  · have hfalse : (s.playerAnswers.any fun a => a.questionIndex == i) = false := by
      simpa using hany
    have hmem : i ∈ unansweredIndices s.questions.length s.playerAnswers := by
      simp [unansweredIndices, List.mem_filter, List.mem_range, hi, hfalse]
    have hrec : timeoutRecord i 0 ∈ markUnanswered s.questions.length s.playerAnswers :=
      List.mem_append_right _ (List.mem_map.mpr ⟨i, hmem, rfl⟩)
    exact ⟨⟨timeoutRecord i 0, hrec, rfl⟩,
      fun _ => ⟨timeoutRecord i 0, hrec, rfl, rfl, rfl, rfl⟩⟩

/-- C4 (witness): the whole-session timeout evaluated on the freshly
loaded one-question state. -/
theorem totalTimeUp_witness :
    (applyOp (initState oneQs) Op.totalTimeUp).phase = Phase.review ∧
    ∃ a ∈ (applyOp (initState oneQs) Op.totalTimeUp).playerAnswers,
      a.questionIndex = 0 ∧ a.selectedAnswer = -1 ∧ a.pointsEarned = 0 := by
  have h := totalTimeUp_marks_all_unanswered (initState oneQs) (by decide)
  refine ⟨h.1, ?_⟩
  rcases (h.2 0 (by decide)).2 (by decide) with ⟨a, ha, h1, h2, h3, _⟩
  exact ⟨a, ha, h1, h2, h3⟩

/-- C5: the client issues at most one settlement submission per session:
in every reachable state at most one `submitFinalScore` call has been
issued, invoking the settlement submission a second time is a no-op
(idempotent on the state), and even after a further submission attempt the
issued-call count stays at most one. -/
theorem settlement_at_most_once (qs : List Question) (s : GameState)
    (h : Reachable qs s) :
    s.submissions.length ≤ 1 ∧
    applyOp (applyOp s Op.submitFinal) Op.submitFinal = applyOp s Op.submitFinal ∧
    (applyOp s Op.submitFinal).submissions.length ≤ 1 := by
  have hinv := submissions_invariant qs s h
  refine ⟨hinv.2, submitFinal_idem s, ?_⟩
  have hreach2 : Reachable qs (applyOp s Op.submitFinal) := by
    rcases h with ⟨ops, rfl⟩
    exact ⟨ops ++ [Op.submitFinal], by simp [Trivia.run, List.foldl_append]⟩
  exact (submissions_invariant qs _ hreach2).2

/-- C5 (witness): at the concrete settled state exactly one submission has
been issued and a repeated submission attempt is a no-op. -/
theorem settlement_at_most_once_witness :
    settledState.submissions.length ≤ 1 ∧
    applyOp (applyOp settledState Op.submitFinal) Op.submitFinal =
      applyOp settledState Op.submitFinal := by
  have h := settlement_at_most_once oneQs settledState ⟨[Op.timeUp 4, Op.submitFinal], rfl⟩
  exact ⟨h.1, h.2.1⟩

/-- C6: delivering the same started event through any sequence of channels
that contains at least one channel able to activate a fresh lobby yields
exactly one lobby-to-active transition and exactly one stored question
set, and any further delivery of the event through any channel is a no-op
on the resulting state. -/
theorem started_event_dedup (qs : List Question) (cs : List Channel)
    (hq : qs ≠ []) (hc : ∃ c ∈ cs, activates c = true) :
    (deliverAll qs initLobby cs).phase = LobbyPhase.active ∧
    (deliverAll qs initLobby cs).storedQuestions = some qs ∧
    countStarts qs initLobby cs = 1 ∧
    ∀ c, deliverStart c qs (deliverAll qs initLobby cs) = deliverAll qs initLobby cs := by
  revert hc
  induction cs with
  | nil => intro hc; simp at hc
  | cons c cs ih =>
    intro hc
    by_cases hac : activates c = true
    · have hstep := deliverStart_activating c qs hq hac
      have hstable := deliverAll_stable cs qs
        { phase := LobbyPhase.active, storedQuestions := some qs } rfl rfl
      refine ⟨?_, ?_, ?_, ?_⟩
      · show (deliverAll qs (deliverStart c qs initLobby) cs).phase = _
        rw [hstep, hstable.1]
      · show (deliverAll qs (deliverStart c qs initLobby) cs).storedQuestions = _
        rw [hstep, hstable.1]
      · simp only [countStarts, hstep, hstable.2]
        simp [initLobby]
      · intro c2
        show deliverStart c2 qs (deliverAll qs (deliverStart c qs initLobby) cs) =
          deliverAll qs (deliverStart c qs initLobby) cs
        rw [hstep, hstable.1]
        exact deliverStart_stable c2 qs
          { phase := LobbyPhase.active, storedQuestions := some qs } rfl rfl
    · have hcw : c = Channel.chainWatch := by
        cases c <;> simp_all [activates]
      subst hcw
      have hc' : ∃ c0 ∈ cs, activates c0 = true := by
        rcases hc with ⟨c0, hc0, hca⟩
        rcases List.mem_cons.mp hc0 with h1 | h1
        · rw [h1] at hca; simp [activates] at hca
        · exact ⟨c0, h1, hca⟩
      have ihr := ih hc'
      refine ⟨?_, ?_, ?_, ?_⟩
      · show (deliverAll qs (deliverStart Channel.chainWatch qs initLobby) cs).phase = _
        rw [deliverStart_chain_lobby]; exact ihr.1
      · show (deliverAll qs (deliverStart Channel.chainWatch qs initLobby) cs).storedQuestions = _
        rw [deliverStart_chain_lobby]; exact ihr.2.1
      · simp only [countStarts, deliverStart_chain_lobby]
        rw [if_neg (by simp [initLobby]), ihr.2.2.1]
      · intro c2
        show deliverStart c2 qs
            (deliverAll qs (deliverStart Channel.chainWatch qs initLobby) cs) =
          deliverAll qs (deliverStart Channel.chainWatch qs initLobby) cs
        rw [deliverStart_chain_lobby]
        exact ihr.2.2.2 c2

/-- C6 (witness): the started event delivered through the contract
watcher, the BroadcastChannel and the same-tab custom event produces one
transition, one stored set, and an idempotent final state. -/
theorem started_event_dedup_witness :
    countStarts oneQs initLobby
        [Channel.broadcast, Channel.customEvent, Channel.chainWatch] = 1 ∧
    (deliverAll oneQs initLobby
        [Channel.broadcast, Channel.customEvent, Channel.chainWatch]).phase =
      LobbyPhase.active ∧
    deliverStart Channel.storageEvent oneQs
        (deliverAll oneQs initLobby
          [Channel.broadcast, Channel.customEvent, Channel.chainWatch]) =
      deliverAll oneQs initLobby
        [Channel.broadcast, Channel.customEvent, Channel.chainWatch] := by
  have h := started_event_dedup oneQs
    [Channel.broadcast, Channel.customEvent, Channel.chainWatch]
    (by decide) (by decide)
  exact ⟨h.2.2.1, h.1, h.2.2.2 Channel.storageEvent⟩

/-- C7: looking up a room code that is not registered (such as the
never-registered "ZZZZZZ") fails with NotFound; the join flow surfaces the
recoverable "Game not found" failure and never yields a session id. -/
theorem lookup_unregistered_notFound (reg : List (String × Nat))
    (h : ∀ e ∈ reg, e.1 ≠ "ZZZZZZ") :
    lookup reg "ZZZZZZ" = Except.error RegistryError.notFound ∧
    joinGame reg "ZZZZZZ" = JoinOutcome.failed "Game not found with this room code" ∧
    ∀ sid, joinGame reg "ZZZZZZ" ≠ JoinOutcome.joined sid := by
  have hf : reg.find? (fun e => e.1 == "ZZZZZZ") = none := by
    rw [List.find?_eq_none]
    intro e he
    simpa using h e he
  have hl : lookup reg "ZZZZZZ" = Except.error RegistryError.notFound := by
    simp [lookup, hf]
  have hu : jsToUpper "ZZZZZZ" = "ZZZZZZ" := by decide
  have hj : joinGame reg "ZZZZZZ" =
      JoinOutcome.failed "Game not found with this room code" := by
    simp only [joinGame]
    rw [if_neg (by decide), if_neg (by decide), hu, hl]
  exact ⟨hl, hj, fun sid => by simp [hj]⟩

/-- C7 (witness): the empty registry rejects "ZZZZZZ" with NotFound. -/
theorem lookup_unregistered_witness :
    lookup [] "ZZZZZZ" = Except.error RegistryError.notFound ∧
    joinGame [] "ZZZZZZ" = JoinOutcome.failed "Game not found with this room code" := by
  have h := lookup_unregistered_notFound [] (by simp)
  exact ⟨h.1, h.2.1⟩

/-- C8 (counterexample): the per-question timeout does not preserve
uniqueness of questionIndex: revisiting a timed-out question from the
review grid and letting it time out again appends a second record for the
same index, so the stored answer list of a reachable state holds two
records with questionIndex 0. -/
theorem timeUp_breaks_uniqueIndices_cex :
    Reachable oneQs timeoutRevisitState ∧
    uniqueIndices timeoutRevisitState.playerAnswers = true ∧
    uniqueIndices (applyOp timeoutRevisitState (Op.timeUp 2)).playerAnswers = false ∧
    Reachable oneQs (applyOp timeoutRevisitState (Op.timeUp 2)) :=
  ⟨⟨[Op.timeUp 1, Op.navGrid 0], rfl⟩, by decide, by decide,
    ⟨[Op.timeUp 1, Op.navGrid 0, Op.timeUp 2], rfl⟩⟩

/-- C8 (amended): the normal submission (overwrite-or-append) and the
whole-session timeout do preserve uniqueness of questionIndex, but the
per-question timeout can duplicate an index; in every reachable state any
record beyond the first for a questionIndex is a zero-point incorrect
timeout duplicate, so exactly one record per index ever carries the live
score. -/
theorem answer_record_uniqueness_amended (qs : List Question) (s : GameState)
    (h : Reachable qs s) :
    dupZero s.playerAnswers = true ∧
    (∀ a, uniqueIndices s.playerAnswers = true →
      uniqueIndices (recordAnswer s.playerAnswers a) = true) ∧
    (∀ n, uniqueIndices s.playerAnswers = true →
      uniqueIndices (markUnanswered n s.playerAnswers) = true) :=
  ⟨dupZero_reachable qs s h,
   fun a hu => uniqueIndices_recordAnswer _ a hu,
   fun n hu => uniqueIndices_markUnanswered n _ hu⟩

/-- C8 (witness): the duplicate-records invariant evaluated at the
reachable state holding two records for question 0. -/
theorem answer_record_uniqueness_witness :
    dupZero (applyOp timeoutRevisitState (Op.timeUp 2)).playerAnswers = true := by
  have h := answer_record_uniqueness_amended oneQs
    (applyOp timeoutRevisitState (Op.timeUp 2))
    ⟨[Op.timeUp 1, Op.navGrid 0, Op.timeUp 2], rfl⟩
  exact h.1

/-- C9 (counterexample): a write after settlement is applied rather than
rejected: from the settled state (score already submitted,
`hasAutoSubmitted` set) the review grid still allows revisiting the
question, and submitting a new answer changes the stored records. -/
theorem post_settlement_write_applied_cex :
    settledState.hasAutoSubmitted = true ∧
    Reachable oneQs settledState ∧
    Reachable oneQs settledOverwriteState ∧
    settledOverwriteState.playerAnswers ≠ settledState.playerAnswers :=
  ⟨by decide, ⟨[Op.timeUp 4, Op.submitFinal], rfl⟩,
    ⟨[Op.timeUp 4, Op.submitFinal, Op.navGrid 0, Op.select 0, Op.submit 3], rfl⟩,
    by decide⟩

/-- C9 (amended): post-settlement writes remain possible and are applied
to the local records, but the settled submission itself is immutable: once
`hasAutoSubmitted` is set, no operation resets it or changes the issued
submissions, so the score settled on the ledger always wins. -/
theorem settled_submission_immutable (s : GameState) (o : Op)
    (h : s.hasAutoSubmitted = true) :
    (applyOp s o).hasAutoSubmitted = true ∧
    (applyOp s o).submissions = s.submissions := by
  rcases submissions_applyOp s o with ⟨h1, h2⟩ | ⟨h1, h2, h3⟩
  · exact ⟨h2.trans h, h1⟩
  · rw [h] at h1
    cases h1

/-- C9 (witness): the settled submission is unchanged by a post-settlement
revisit navigation. -/
theorem settled_submission_immutable_witness :
    (applyOp settledState (Op.navGrid 0)).hasAutoSubmitted = true ∧
    (applyOp settledState (Op.navGrid 0)).submissions = settledState.submissions :=
  settled_submission_immutable settledState (Op.navGrid 0) (by decide)

/-- C10 (counterexample): the generated room code is not always 6
characters: `Math.random()` can return 0, whose base-36 string is "0", so
`substring(2, 8)` yields the empty string and the generated room code has
length 0, which the join flow's 6-character requirement rejects. -/
theorem roomCode_length_cex :
    generateRoomCode 0 = "" ∧ (generateRoomCode 0).length = 0 ∧
    (0 : Nat) < pow53 ∧ ¬(generateRoomCode 0).length = 6 :=
  ⟨by decide, by decide, by decide, by decide⟩

/-- C10 (amended): for every value `Math.random()` can return, the
generated room code consists of at most 6 characters, each an uppercase
alphanumeric ASCII character; the 6-character length required by the join
flow is reached only when the base-36 expansion of the random value has at
least 6 digits. -/
theorem roomCode_upper_alnum_le_six (k : Nat) (hk : k < pow53) :
    (generateRoomCode k).length ≤ 6 ∧
    ∀ c ∈ (generateRoomCode k).data, isUpperAlnum c = true := by
  by_cases hk0 : k = 0
  · subst hk0
    exact ⟨by decide, by decide⟩
  · have hdata := generateRoomCode_data k hk0
    constructor
    · show (generateRoomCode k).data.length ≤ 6
      rw [hdata]
      calc (((frac36 54 k).take 6).map Char.toUpper).length
          = ((frac36 54 k).take 6).length := List.length_map _ _
        _ ≤ 6 := List.length_take_le _ _
    · intro c hc
      rw [hdata] at hc
      rcases List.mem_map.mp hc with ⟨c0, hc0, rfl⟩
      have hc0' : c0 ∈ frac36 54 k := List.mem_of_mem_take hc0
      rcases frac36_digit_form 54 k hk c0 hc0' with ⟨d, hd, rfl⟩
      exact upper_base36 d hd

/-- C10 (witness): the room code generated from the random value
`1 / 2^53` is within the length bound. -/
theorem roomCode_upper_alnum_witness :
    (1 : Nat) < pow53 ∧ (generateRoomCode 1).length ≤ 6 := by
  have h := roomCode_upper_alnum_le_six 1 (by decide)
  exact ⟨by decide, h.1⟩

end Trivia
